import Mathlib

/- Shallow embedding of src/parse_curriculum_csv.py (functions
parse_curriculum_csv and extract_summary_info).  Rows are four raw string
cells (the CSV collaborator's output after fillna('')); Python floats are
modelled as rationals, Python ints as integers.  Numeric-literal parsing
models the plain decimal forms accepted by float()/int(); exponent forms,
underscores and non-ASCII digits are outside the modelled input language. -/

namespace Curr

def isSpaceChar (c : Char) : Bool :=
  c = ' ' || c = '\t' || c = '\n' || c = '\r' || c = '\x0B' || c = '\x0C'

/-- Python str.strip on the character list of a cell. -/
def pyStripList (l : List Char) : List Char :=
  ((l.dropWhile isSpaceChar).reverse.dropWhile isSpaceChar).reverse

def pyStrip (s : String) : String := String.mk (pyStripList s.data)

def digitsToNat (l : List Char) : Nat :=
  l.foldl (fun a c => 10 * a + (c.toNat - 48)) 0

/-- The regex check re.match(r"^\d+$", s): non-empty and all decimal digits. -/
def matchDigits (s : String) : Bool :=
  !s.data.isEmpty && s.data.all Char.isDigit

def parseNatDigits (l : List Char) : Option Nat :=
  if !l.isEmpty && l.all Char.isDigit then some (digitsToNat l) else none

/-- Python int(s) on a stripped cell: optional sign then decimal digits. -/
def parseIntZ (s : String) : Option Int :=
  match s.data with
  | '+' :: rest => (parseNatDigits rest).map (fun n => (n : Int))
  | '-' :: rest => (parseNatDigits rest).map (fun n => -(n : Int))
  | l => (parseNatDigits l).map (fun n => (n : Int))

def parseFracParts (l : List Char) : Option ℚ :=
  let ip := l.takeWhile (fun c => c ≠ '.')
  match l.drop ip.length with
  | [] => (parseNatDigits ip).map (fun n => (n : ℚ))
  | _ :: frac =>
      if ip.all Char.isDigit && frac.all Char.isDigit &&
          (!ip.isEmpty || !frac.isEmpty) then
        some ((digitsToNat ip : ℚ) + (digitsToNat frac : ℚ) / ((10 : ℚ) ^ frac.length))
      else none

/-- Python float(s) on a stripped cell: optional sign, digits with at most
one decimal point and at least one digit. -/
def parseFloatQ (s : String) : Option ℚ :=
  match s.data with
  | '+' :: rest => parseFracParts rest
  | '-' :: rest => (parseFracParts rest).map (fun q => -q)
  | l => parseFracParts l

def listIsPre : List Char → List Char → Bool
  | [], _ => true
  | _ :: _, [] => false
  | a :: as, b :: bs => (a == b) && listIsPre as bs

/-- The anchored regex re.match(r"Блок \d+\.", c2): on success returns the
parsed block number and the characters after the period. -/
def blockHeadParse (l : List Char) : Option (Nat × List Char) :=
  if listIsPre ("Блок ".data) l then
    let r := l.drop 5
    let ds := r.takeWhile Char.isDigit
    if ds.isEmpty then none
    else
      match r.drop ds.length with
      | '.' :: rest => some (digitsToNat ds, rest)
      | _ => none
  else none

def blockHeadOk (c2 : String) : Bool := (blockHeadParse c2.data).isSome

/-- The full regex re.match(r"Блок (\d+)\. (.+)", c2): the part after the
period must be a space followed by at least one character (the dot in the
regex does not cross a newline). -/
def blockFullParse (c2 : String) : Option (Nat × String) :=
  match blockHeadParse c2.data with
  | some nr =>
      match nr.2 with
      | ' ' :: r2 =>
          let nm := r2.takeWhile (fun c => c ≠ '\n')
          if nm.isEmpty then none else some (nr.1, String.mk nm)
      | _ => none
  | none => none

def startsBlok (c2 : String) : Bool := listIsPre ("Блок".data) c2.data

structure Row where
  c1 : String
  c2 : String
  c3 : String
  c4 : String
deriving DecidableEq

structure Discipline where
  semester : Option Nat
  name : String
  credits : ℚ
  hours : ℤ
deriving DecidableEq

structure Module where
  module_name : String
  credits : ℚ
  hours : ℤ
  disciplines : List Discipline
deriving DecidableEq

structure Block where
  block_number : Nat
  block_name : String
  total_credits : ℚ
  total_hours : ℤ
  modules : List Module
deriving DecidableEq

structure ProgramInfo where
  title : String
  university : String
  level : String
  total_credits : ℚ
  total_hours : ℤ
deriving DecidableEq

structure WorkTotals where
  total_credits : ℚ
  total_hours : ℤ
deriving DecidableEq

structure SemBucket where
  credits : ℚ
  hours : ℤ
  disciplines : Nat
deriving DecidableEq

structure Summary where
  total_disciplines : Nat
  semesters_count : Nat
  blocks_count : Nat
  modules_count : Nat
  practical_work : WorkTotals
  theoretical_work : WorkTotals
  semester_1 : SemBucket
  semester_2 : SemBucket
  semester_3 : SemBucket
  semester_4 : SemBucket
deriving DecidableEq

structure Curriculum where
  program_info : ProgramInfo
  blocks : List Block
  summary : Summary
deriving DecidableEq

/-- Parser state: `done` holds blocks whose aliasing with the current block
has ended, `aliasCount` counts pending occurrences of the current block in
the output list beyond the final one (a half-matched block header row seals
the current block without replacing it, leaving the sealed entry aliased to
the still-open block). -/
structure PState where
  done : List Block
  current : Option Block
  aliasCount : Nat
  curModOpen : Bool
  total_credits : ℚ
  total_hours : ℤ
deriving DecidableEq

/-- The shared try/except over `credits = float(c3) if c3 else 0` and
`hours = int(c4) if c4 else 0`: a ValueError from either cell resets both
to zero. -/
def parseCH (c3 c4 : String) : ℚ × ℤ :=
  match (if c3 = "" then some (0 : ℚ) else parseFloatQ c3),
        (if c4 = "" then some (0 : ℤ) else parseIntZ c4) with
  | some cr, some hr => (cr, hr)
  | _, _ => (0, 0)

def appendToLast (ms : List Module) (d : Discipline) : List Module :=
  match ms with
  | [] => []
  | [m] => [{ m with disciplines := m.disciplines ++ [d] }]
  | m :: m2 :: rest => m :: appendToLast (m2 :: rest) d

def handleBlock (st : PState) (c2 c3 c4 : String) : PState :=
  let st1 :=
    match st.current with
    | some _ => { st with aliasCount := st.aliasCount + 1 }
    | none => st
  match blockFullParse c2 with
  | some nn =>
      let p := parseCH c3 c4
      { done := st1.done ++ (match st1.current with
          | some b => List.replicate st1.aliasCount b
          | none => []),
        current := some ⟨nn.1, nn.2, p.1, p.2, []⟩,
        aliasCount := 0,
        curModOpen := false,
        total_credits := st1.total_credits + p.1,
        total_hours := st1.total_hours + p.2 }
  | none => st1

def handleModule (st : PState) (c2 c3 c4 : String) : PState :=
  match st.current with
  | some b =>
      let p := parseCH c3 c4
      if 0 < p.1 ∨ 0 < p.2 then
        { st with current := some ({ b with modules := b.modules ++ [⟨c2, p.1, p.2, []⟩] }),
                  curModOpen := true }
      else st
  | none => st

def handleDiscSem (st : PState) (c1 c2 c3 c4 : String) : PState :=
  match parseFloatQ c3, parseIntZ c4 with
  | some cr, some hr =>
      if st.curModOpen then
        match st.current with
        | some b =>
            let b2 : Block := { b with modules := appendToLast b.modules ⟨some (digitsToNat c1.data), c2, cr, hr⟩ }
            { st with current := some b2 }
        | none => st
      else st
  | _, _ => st

def handleDiscNoSem (st : PState) (c2 c3 c4 : String) : PState :=
  match parseFloatQ c3, parseIntZ c4 with
  | some cr, some hr =>
      if 0 < cr ∨ 0 < hr then
        if st.curModOpen then
          match st.current with
          | some b =>
              let b2 : Block := { b with modules := appendToLast b.modules ⟨none, c2, cr, hr⟩ }
              { st with current := some b2 }
          | none => st
        else st
      else st
  | _, _ => st

/-- The elif chain of the row loop on the stripped cells.  The fourth guard
is character-for-character the same as the second one in the source, so the
fourth branch is unreachable. -/
def stepCols (st : PState) (c1 c2 c3 c4 : String) : PState :=
  if c1 = "" ∧ blockHeadOk c2 = true then
    handleBlock st c2 c3 c4
  else if c1 = "" ∧ c2 ≠ "" ∧ startsBlok c2 = false ∧ matchDigits c2 = false ∧ c3 ≠ "" ∧ c4 ≠ "" then
    handleModule st c2 c3 c4
  else if c1 ≠ "" ∧ matchDigits c1 = true ∧ c2 ≠ "" ∧ c3 ≠ "" ∧ c4 ≠ "" then
    handleDiscSem st c1 c2 c3 c4
  else if c1 = "" ∧ c2 ≠ "" ∧ startsBlok c2 = false ∧ matchDigits c2 = false ∧ c3 ≠ "" ∧ c4 ≠ "" then
    handleDiscNoSem st c2 c3 c4
  else st

/-- One row of the loop body: the blank test is on the raw cells, the
classification on the stripped ones. -/
def stepRow (st : PState) (r : Row) : PState :=
  if r.c1 = "" ∧ r.c2 = "" ∧ r.c3 = "" ∧ r.c4 = "" then st
  else stepCols st (pyStrip r.c1) (pyStrip r.c2) (pyStrip r.c3) (pyStrip r.c4)

/-- The blocks list at the end of the loop: the trailing append of the
still-open block, plus any pending aliased copies of it. -/
def stateBlocks (st : PState) : List Block :=
  st.done ++ (match st.current with
    | some b => List.replicate (st.aliasCount + 1) b
    | none => [])

def initState : PState := ⟨[], none, 0, false, 0, 0⟩

def charLower (c : Char) : Char :=
  if 'A' ≤ c ∧ c ≤ 'Z' then Char.ofNat (c.toNat + 32)
  else if 'А' ≤ c ∧ c ≤ 'Я' then Char.ofNat (c.toNat + 32)
  else if c = 'Ё' then 'ё'
  else c

def lowerList (s : String) : List Char := s.data.map charLower

def listContains (pat : List Char) : List Char → Bool
  | [] => pat.isEmpty
  | c :: rest => listIsPre pat (c :: rest) || listContains pat rest

/-- The test `"практика" in name.lower() or "практик" in name.lower()`. -/
def isPractical (name : String) : Bool :=
  listContains ("практика".data) (lowerList name) ||
  listContains ("практик".data) (lowerList name)

def bumpBucket (bk : SemBucket) (d : Discipline) : SemBucket :=
  ⟨bk.credits + d.credits, bk.hours + d.hours, bk.disciplines + 1⟩

/-- Per-discipline update of extract_summary_info: the bucket key
"semester_{n}" is looked up among the four fixed keys. -/
def addDisc (s : Summary) (d : Discipline) : Summary :=
  match d.semester with
  | none => s
  | some k =>
      if k = 1 then { s with semester_1 := bumpBucket s.semester_1 d }
      else if k = 2 then { s with semester_2 := bumpBucket s.semester_2 d }
      else if k = 3 then { s with semester_3 := bumpBucket s.semester_3 d }
      else if k = 4 then { s with semester_4 := bumpBucket s.semester_4 d }
      else s

def addModule (s : Summary) (m : Module) : Summary :=
  let s1 := { s with total_disciplines := s.total_disciplines + m.disciplines.length }
  let s2 :=
    if isPractical m.module_name then
      { s1 with practical_work := ⟨s1.practical_work.total_credits + m.credits,
                                   s1.practical_work.total_hours + m.hours⟩ }
    else
      { s1 with theoretical_work := ⟨s1.theoretical_work.total_credits + m.credits,
                                     s1.theoretical_work.total_hours + m.hours⟩ }
  m.disciplines.foldl addDisc s2

def addBlock (s : Summary) (b : Block) : Summary :=
  b.modules.foldl addModule { s with modules_count := s.modules_count + b.modules.length }

def initSummary (blocks : List Block) : Summary :=
  ⟨0, 4, blocks.length, 0, ⟨0, 0⟩, ⟨0, 0⟩, ⟨0, 0, 0⟩, ⟨0, 0, 0⟩, ⟨0, 0, 0⟩, ⟨0, 0, 0⟩⟩

def extract_summary_info (blocks : List Block) : Summary :=
  blocks.foldl addBlock (initSummary blocks)

/-- parse_curriculum_csv on the row sequence: the title is the raw first
cell of the first row (default for an empty table), every row, the first
included, goes through the classifier. -/
def parse_curriculum_csv (rows : List Row) : Curriculum :=
  let title := match rows with
    | [] => "Учебный план"
    | r :: _ => r.c1
  let st := rows.foldl stepRow initState
  let blocks := stateBlocks st
  { program_info := ⟨title, "ИТМО", "магистратура", st.total_credits, st.total_hours⟩,
    blocks := blocks,
    summary := extract_summary_info blocks }

def allModules (blocks : List Block) : List Module :=
  (blocks.map Block.modules).flatten

def allDiscs (blocks : List Block) : List Discipline :=
  ((allModules blocks).map Module.disciplines).flatten

def semCredits (k : Nat) (ds : List Discipline) : ℚ :=
  ((ds.filter (fun d => d.semester == some k)).map Discipline.credits).sum

def semHours (k : Nat) (ds : List Discipline) : ℤ :=
  ((ds.filter (fun d => d.semester == some k)).map Discipline.hours).sum

def semCount (k : Nat) (ds : List Discipline) : Nat :=
  (ds.filter (fun d => d.semester == some k)).length

def semBucket (s : Summary) (k : Nat) : SemBucket :=
  if k = 1 then s.semester_1
  else if k = 2 then s.semester_2
  else if k = 3 then s.semester_3
  else if k = 4 then s.semester_4
  else ⟨0, 0, 0⟩

def semInRange (d : Discipline) : Bool :=
  match d.semester with
  | some k => decide (1 ≤ k ∧ k ≤ 4)
  | none => false

def discsOkB (b : Block) : Prop :=
  ∀ m ∈ b.modules, ∀ d ∈ m.disciplines, d.semester.isSome = true

def discsOkS (st : PState) : Prop :=
  (∀ b ∈ st.done, discsOkB b) ∧ (∀ b, st.current = some b → discsOkB b)

/-- A row is benign for the summation invariant when, if it looks like a
block header (empty c1, c2 matching the prefix pattern), its c2 also
matches the full pattern — i.e. it does not take the seal-without-replace
path exhibited by c1_cex. -/
def goodRow (r : Row) : Prop :=
  pyStrip r.c1 = "" → blockHeadOk (pyStrip r.c2) = true →
    (blockFullParse (pyStrip r.c2)).isSome = true

instance decGoodRow (r : Row) : Decidable (goodRow r) := by
  unfold goodRow
  infer_instance

def sumsOk (st : PState) : Prop :=
  st.aliasCount = 0
  ∧ (st.done.map Block.total_credits).sum + st.current.elim 0 Block.total_credits =
      st.total_credits
  ∧ (st.done.map Block.total_hours).sum + st.current.elim 0 Block.total_hours =
      st.total_hours

lemma addDisc_total (s : Summary) (d : Discipline) :
    (addDisc s d).total_disciplines = s.total_disciplines := by
  rcases hd : d.semester with _ | k <;> simp [addDisc, hd] <;> split_ifs <;> rfl

lemma addDisc_pract (s : Summary) (d : Discipline) :
    (addDisc s d).practical_work = s.practical_work := by
  rcases hd : d.semester with _ | k <;> simp [addDisc, hd] <;> split_ifs <;> rfl

lemma addDisc_theo (s : Summary) (d : Discipline) :
    (addDisc s d).theoretical_work = s.theoretical_work := by
  rcases hd : d.semester with _ | k <;> simp [addDisc, hd] <;> split_ifs <;> rfl

lemma addDisc_modules (s : Summary) (d : Discipline) :
    (addDisc s d).modules_count = s.modules_count := by
  rcases hd : d.semester with _ | k <;> simp [addDisc, hd] <;> split_ifs <;> rfl

lemma addDisc_blocks (s : Summary) (d : Discipline) :
    (addDisc s d).blocks_count = s.blocks_count := by
  rcases hd : d.semester with _ | k <;> simp [addDisc, hd] <;> split_ifs <;> rfl

lemma foldl_addDisc_total (ds : List Discipline) : ∀ s : Summary,
    (ds.foldl addDisc s).total_disciplines = s.total_disciplines := by
  induction ds with
  | nil => intro s; rfl
  | cons d ds ih => intro s; rw [List.foldl_cons, ih, addDisc_total]

lemma foldl_addDisc_pract (ds : List Discipline) : ∀ s : Summary,
    (ds.foldl addDisc s).practical_work = s.practical_work := by
  induction ds with
  | nil => intro s; rfl
  | cons d ds ih => intro s; rw [List.foldl_cons, ih, addDisc_pract]

lemma foldl_addDisc_theo (ds : List Discipline) : ∀ s : Summary,
    (ds.foldl addDisc s).theoretical_work = s.theoretical_work := by
  induction ds with
  | nil => intro s; rfl
  | cons d ds ih => intro s; rw [List.foldl_cons, ih, addDisc_theo]

lemma foldl_addDisc_modules (ds : List Discipline) : ∀ s : Summary,
    (ds.foldl addDisc s).modules_count = s.modules_count := by
  induction ds with
  | nil => intro s; rfl
  | cons d ds ih => intro s; rw [List.foldl_cons, ih, addDisc_modules]

lemma foldl_addDisc_blocks (ds : List Discipline) : ∀ s : Summary,
    (ds.foldl addDisc s).blocks_count = s.blocks_count := by
  induction ds with
  | nil => intro s; rfl
  | cons d ds ih => intro s; rw [List.foldl_cons, ih, addDisc_blocks]

lemma semBucket_addDisc (s : Summary) (d : Discipline) (k : Nat)
    (hk : k = 1 ∨ k = 2 ∨ k = 3 ∨ k = 4) :
    semBucket (addDisc s d) k =
      if d.semester == some k then bumpBucket (semBucket s k) d else semBucket s k := by
  rcases hd : d.semester with _ | m
  · rcases hk with h | h | h | h <;> subst h <;> simp [addDisc, hd, semBucket]
  · rcases hk with h | h | h | h <;> subst h <;>
      by_cases h1 : m = 1 <;> by_cases h2 : m = 2 <;> by_cases h3 : m = 3 <;>
      by_cases h4 : m = 4 <;> simp_all [addDisc, semBucket]

lemma semBucket_foldl_addDisc (ds : List Discipline) : ∀ (s : Summary) (k : Nat),
    (k = 1 ∨ k = 2 ∨ k = 3 ∨ k = 4) →
    semBucket (ds.foldl addDisc s) k =
      ⟨(semBucket s k).credits + semCredits k ds, (semBucket s k).hours + semHours k ds,
        (semBucket s k).disciplines + semCount k ds⟩ := by
  induction ds with
  | nil => intro s k hk; simp [semCredits, semHours, semCount]
  | cons d ds ih =>
      intro s k hk
      rw [List.foldl_cons, ih _ k hk, semBucket_addDisc s d k hk]
      by_cases hd : d.semester == some k
      · simp [hd, bumpBucket, semCredits, semHours, semCount, List.filter_cons, add_assoc,
          Nat.add_comm]
      · simp [hd, semCredits, semHours, semCount, List.filter_cons]

lemma semCredits_append (k : Nat) (l1 l2 : List Discipline) :
    semCredits k (l1 ++ l2) = semCredits k l1 + semCredits k l2 := by
  simp [semCredits, List.filter_append]

lemma semHours_append (k : Nat) (l1 l2 : List Discipline) :
    semHours k (l1 ++ l2) = semHours k l1 + semHours k l2 := by
  simp [semHours, List.filter_append]

lemma semCount_append (k : Nat) (l1 l2 : List Discipline) :
    semCount k (l1 ++ l2) = semCount k l1 + semCount k l2 := by
  simp [semCount, List.filter_append]

lemma addModule_total (s : Summary) (m : Module) :
    (addModule s m).total_disciplines = s.total_disciplines + m.disciplines.length := by
  simp only [addModule, foldl_addDisc_total]
  split_ifs <;> rfl

lemma addModule_modules (s : Summary) (m : Module) :
    (addModule s m).modules_count = s.modules_count := by
  simp only [addModule, foldl_addDisc_modules]
  split_ifs <;> rfl

lemma addModule_blocks (s : Summary) (m : Module) :
    (addModule s m).blocks_count = s.blocks_count := by
  simp only [addModule, foldl_addDisc_blocks]
  split_ifs <;> rfl

lemma addModule_pract (s : Summary) (m : Module) :
    (addModule s m).practical_work =
      if isPractical m.module_name then
        ⟨s.practical_work.total_credits + m.credits, s.practical_work.total_hours + m.hours⟩
      else s.practical_work := by
  simp only [addModule, foldl_addDisc_pract]
  split_ifs <;> rfl

lemma addModule_theo (s : Summary) (m : Module) :
    (addModule s m).theoretical_work =
      if isPractical m.module_name then s.theoretical_work
      else
        ⟨s.theoretical_work.total_credits + m.credits,
         s.theoretical_work.total_hours + m.hours⟩ := by
  simp only [addModule, foldl_addDisc_theo]
  split_ifs <;> rfl

lemma semBucket_addModule (s : Summary) (m : Module) (k : Nat)
    (hk : k = 1 ∨ k = 2 ∨ k = 3 ∨ k = 4) :
    semBucket (addModule s m) k =
      ⟨(semBucket s k).credits + semCredits k m.disciplines,
       (semBucket s k).hours + semHours k m.disciplines,
       (semBucket s k).disciplines + semCount k m.disciplines⟩ := by
  simp only [addModule]
  rw [semBucket_foldl_addDisc _ _ k hk]
  rcases hk with h | h | h | h <;> subst h <;> split_ifs <;> rfl

lemma foldl_addModule_total (ms : List Module) : ∀ s : Summary,
    (ms.foldl addModule s).total_disciplines =
      s.total_disciplines + ((ms.map Module.disciplines).flatten).length := by
  induction ms with
  | nil => intro s; simp
  | cons m ms ih =>
      intro s
      rw [List.foldl_cons, ih, addModule_total]
      simp [add_assoc]

lemma foldl_addModule_modules (ms : List Module) : ∀ s : Summary,
    (ms.foldl addModule s).modules_count = s.modules_count := by
  induction ms with
  | nil => intro s; rfl
  | cons m ms ih => intro s; rw [List.foldl_cons, ih, addModule_modules]

lemma foldl_addModule_blocks (ms : List Module) : ∀ s : Summary,
    (ms.foldl addModule s).blocks_count = s.blocks_count := by
  induction ms with
  | nil => intro s; rfl
  | cons m ms ih => intro s; rw [List.foldl_cons, ih, addModule_blocks]

lemma foldl_addModule_pract (ms : List Module) : ∀ s : Summary,
    (ms.foldl addModule s).practical_work =
      ⟨s.practical_work.total_credits +
          ((ms.filter (fun m => isPractical m.module_name)).map Module.credits).sum,
        s.practical_work.total_hours +
          ((ms.filter (fun m => isPractical m.module_name)).map Module.hours).sum⟩ := by
  induction ms with
  | nil => intro s; simp
  | cons m ms ih =>
      intro s
      rw [List.foldl_cons, ih, addModule_pract]
      by_cases hp : isPractical m.module_name <;>
        simp [hp, List.filter_cons, add_assoc]

lemma foldl_addModule_theo (ms : List Module) : ∀ s : Summary,
    (ms.foldl addModule s).theoretical_work =
      ⟨s.theoretical_work.total_credits +
          ((ms.filter (fun m => !isPractical m.module_name)).map Module.credits).sum,
        s.theoretical_work.total_hours +
          ((ms.filter (fun m => !isPractical m.module_name)).map Module.hours).sum⟩ := by
  induction ms with
  | nil => intro s; simp
  | cons m ms ih =>
      intro s
      rw [List.foldl_cons, ih, addModule_theo]
      by_cases hp : isPractical m.module_name <;>
        simp [hp, List.filter_cons, add_assoc]

lemma foldl_addModule_semBucket (ms : List Module) : ∀ (s : Summary) (k : Nat),
    (k = 1 ∨ k = 2 ∨ k = 3 ∨ k = 4) →
    semBucket (ms.foldl addModule s) k =
      ⟨(semBucket s k).credits + semCredits k ((ms.map Module.disciplines).flatten),
       (semBucket s k).hours + semHours k ((ms.map Module.disciplines).flatten),
       (semBucket s k).disciplines + semCount k ((ms.map Module.disciplines).flatten)⟩ := by
  induction ms with
  | nil => intro s k hk; simp [semCredits, semHours, semCount]
  | cons m ms ih =>
      intro s k hk
      rw [List.foldl_cons, ih _ k hk, semBucket_addModule s m k hk]
      simp [semCredits_append, semHours_append, semCount_append, add_assoc]

lemma allModules_cons (b : Block) (bs : List Block) :
    allModules (b :: bs) = b.modules ++ allModules bs := by
  simp [allModules]

lemma allDiscs_cons (b : Block) (bs : List Block) :
    allDiscs (b :: bs) = ((b.modules.map Module.disciplines).flatten) ++ allDiscs bs := by
  simp [allDiscs, allModules_cons, allModules]

lemma addBlock_total (s : Summary) (b : Block) :
    (addBlock s b).total_disciplines =
      s.total_disciplines + ((b.modules.map Module.disciplines).flatten).length := by
  simp only [addBlock, foldl_addModule_total]

lemma addBlock_modules (s : Summary) (b : Block) :
    (addBlock s b).modules_count = s.modules_count + b.modules.length := by
  simp only [addBlock, foldl_addModule_modules]

lemma addBlock_blocks (s : Summary) (b : Block) :
    (addBlock s b).blocks_count = s.blocks_count := by
  simp only [addBlock, foldl_addModule_blocks]

lemma addBlock_pract (s : Summary) (b : Block) :
    (addBlock s b).practical_work =
      ⟨s.practical_work.total_credits +
          ((b.modules.filter (fun m => isPractical m.module_name)).map Module.credits).sum,
        s.practical_work.total_hours +
          ((b.modules.filter (fun m => isPractical m.module_name)).map Module.hours).sum⟩ := by
  simp only [addBlock, foldl_addModule_pract]

lemma addBlock_theo (s : Summary) (b : Block) :
    (addBlock s b).theoretical_work =
      ⟨s.theoretical_work.total_credits +
          ((b.modules.filter (fun m => !isPractical m.module_name)).map Module.credits).sum,
        s.theoretical_work.total_hours +
          ((b.modules.filter (fun m => !isPractical m.module_name)).map Module.hours).sum⟩ := by
  simp only [addBlock, foldl_addModule_theo]

lemma semBucket_addBlock (s : Summary) (b : Block) (k : Nat)
    (hk : k = 1 ∨ k = 2 ∨ k = 3 ∨ k = 4) :
    semBucket (addBlock s b) k =
      ⟨(semBucket s k).credits + semCredits k ((b.modules.map Module.disciplines).flatten),
       (semBucket s k).hours + semHours k ((b.modules.map Module.disciplines).flatten),
       (semBucket s k).disciplines + semCount k ((b.modules.map Module.disciplines).flatten)⟩ := by
  simp only [addBlock]
  rw [foldl_addModule_semBucket _ _ k hk]
  rcases hk with h | h | h | h <;> subst h <;> rfl

lemma foldl_addBlock_total (bs : List Block) : ∀ s : Summary,
    (bs.foldl addBlock s).total_disciplines = s.total_disciplines + (allDiscs bs).length := by
  induction bs with
  | nil => intro s; simp [allDiscs, allModules]
  | cons b bs ih =>
      intro s
      rw [List.foldl_cons, ih, addBlock_total, allDiscs_cons]
      simp [add_assoc]

lemma foldl_addBlock_modules (bs : List Block) : ∀ s : Summary,
    (bs.foldl addBlock s).modules_count = s.modules_count + (allModules bs).length := by
  induction bs with
  | nil => intro s; simp [allModules]
  | cons b bs ih =>
      intro s
      rw [List.foldl_cons, ih, addBlock_modules, allModules_cons]
      simp [add_assoc]

lemma foldl_addBlock_blocks (bs : List Block) : ∀ s : Summary,
    (bs.foldl addBlock s).blocks_count = s.blocks_count := by
  induction bs with
  | nil => intro s; rfl
  | cons b bs ih => intro s; rw [List.foldl_cons, ih, addBlock_blocks]

lemma foldl_addBlock_pract (bs : List Block) : ∀ s : Summary,
    (bs.foldl addBlock s).practical_work =
      ⟨s.practical_work.total_credits +
          (((allModules bs).filter (fun m => isPractical m.module_name)).map Module.credits).sum,
        s.practical_work.total_hours +
          (((allModules bs).filter (fun m => isPractical m.module_name)).map Module.hours).sum⟩ := by
  induction bs with
  | nil => intro s; simp [allModules]
  | cons b bs ih =>
      intro s
      rw [List.foldl_cons, ih, addBlock_pract, allModules_cons]
      simp [List.filter_append, add_assoc]

lemma foldl_addBlock_theo (bs : List Block) : ∀ s : Summary,
    (bs.foldl addBlock s).theoretical_work =
      ⟨s.theoretical_work.total_credits +
          (((allModules bs).filter (fun m => !isPractical m.module_name)).map Module.credits).sum,
        s.theoretical_work.total_hours +
          (((allModules bs).filter (fun m => !isPractical m.module_name)).map Module.hours).sum⟩ := by
  induction bs with
  | nil => intro s; simp [allModules]
  | cons b bs ih =>
      intro s
      rw [List.foldl_cons, ih, addBlock_theo, allModules_cons]
      simp [List.filter_append, add_assoc]

lemma foldl_addBlock_semBucket (bs : List Block) : ∀ (s : Summary) (k : Nat),
    (k = 1 ∨ k = 2 ∨ k = 3 ∨ k = 4) →
    semBucket (bs.foldl addBlock s) k =
      ⟨(semBucket s k).credits + semCredits k (allDiscs bs),
       (semBucket s k).hours + semHours k (allDiscs bs),
       (semBucket s k).disciplines + semCount k (allDiscs bs)⟩ := by
  induction bs with
  | nil => intro s k hk; simp [allDiscs, allModules, semCredits, semHours, semCount]
  | cons b bs ih =>
      intro s k hk
      rw [List.foldl_cons, ih _ k hk, semBucket_addBlock s b k hk, allDiscs_cons]
      simp [semCredits_append, semHours_append, semCount_append, add_assoc]

lemma extract_total (bs : List Block) :
    (extract_summary_info bs).total_disciplines = (allDiscs bs).length := by
  rw [extract_summary_info, foldl_addBlock_total]
  simp [initSummary]

lemma extract_blocks (bs : List Block) :
    (extract_summary_info bs).blocks_count = bs.length := by
  rw [extract_summary_info, foldl_addBlock_blocks]
  simp [initSummary]

lemma extract_modules (bs : List Block) :
    (extract_summary_info bs).modules_count = (allModules bs).length := by
  rw [extract_summary_info, foldl_addBlock_modules]
  simp [initSummary]

lemma extract_pract (bs : List Block) :
    (extract_summary_info bs).practical_work =
      ⟨(((allModules bs).filter (fun m => isPractical m.module_name)).map Module.credits).sum,
        (((allModules bs).filter (fun m => isPractical m.module_name)).map Module.hours).sum⟩ := by
  rw [extract_summary_info, foldl_addBlock_pract]
  simp [initSummary]

lemma extract_theo (bs : List Block) :
    (extract_summary_info bs).theoretical_work =
      ⟨(((allModules bs).filter (fun m => !isPractical m.module_name)).map Module.credits).sum,
        (((allModules bs).filter (fun m => !isPractical m.module_name)).map Module.hours).sum⟩ := by
  rw [extract_summary_info, foldl_addBlock_theo]
  simp [initSummary]

lemma extract_semBucket (bs : List Block) (k : Nat)
    (hk : k = 1 ∨ k = 2 ∨ k = 3 ∨ k = 4) :
    semBucket (extract_summary_info bs) k =
      ⟨semCredits k (allDiscs bs), semHours k (allDiscs bs), semCount k (allDiscs bs)⟩ := by
  rw [extract_summary_info, foldl_addBlock_semBucket _ _ k hk]
  rcases hk with h | h | h | h <;> subst h <;> simp [semBucket, initSummary]

lemma listIsPre_append_left : ∀ (p q l : List Char),
    listIsPre (p ++ q) l = true → listIsPre p l = true := by
  intro p
  induction p with
  | nil => intro q l _; rfl
  | cons a as ih =>
      intro q l h
      cases l with
      | nil => simp [listIsPre] at h
      | cons b bs =>
          simp [listIsPre] at h ⊢
          exact ⟨h.1, ih q bs h.2⟩

lemma listContains_mono (p q : List Char) : ∀ l : List Char,
    listContains (p ++ q) l = true → listContains p l = true := by
  intro l
  induction l with
  | nil =>
      intro h
      simp [listContains] at h ⊢
      exact h.1
  | cons c cs ih =>
      intro h
      simp [listContains] at h ⊢
      rcases h with h | h
      · exact Or.inl (listIsPre_append_left p q _ h)
      · exact Or.inr (ih h)

lemma isPractical_eq (name : String) :
    isPractical name = listContains ("практик".data) (lowerList name) := by
  unfold isPractical
  cases hc : listContains ("практика".data) (lowerList name)
  · simp [hc]
  · have hsplit : ("практика".data) = ("практик".data) ++ ['а'] := by decide
    have h2 : listContains ("практик".data) (lowerList name) = true :=
      listContains_mono _ _ _ (hsplit ▸ hc)
    simp [hc, h2]

lemma sum_split {M : Type} [AddCommMonoid M] (p : Module → Bool) (f : Module → M) :
    ∀ ms : List Module,
      ((ms.filter p).map f).sum + ((ms.filter (fun m => !p m)).map f).sum =
        (ms.map f).sum := by
  intro ms
  induction ms with
  | nil => simp
  | cons m ms ih =>
      by_cases hp : p m <;>
        simp [List.filter_cons, hp, add_assoc, add_left_comm, ih]

lemma semCount_cons (k : Nat) (d : Discipline) (ds : List Discipline) :
    semCount k (d :: ds) = semCount k ds + (if d.semester == some k then 1 else 0) := by
  by_cases h : d.semester == some k <;> simp [semCount, List.filter_cons, h]

lemma semCount_sum_le (ds : List Discipline) :
    semCount 1 ds + semCount 2 ds + semCount 3 ds + semCount 4 ds ≤ ds.length := by
  induction ds with
  | nil => simp [semCount]
  | cons d ds ih =>
      rw [semCount_cons, semCount_cons, semCount_cons, semCount_cons, List.length_cons]
      rcases hd : d.semester with _ | m
      · simp [hd, beq_iff_eq]
        omega
      · simp only [hd, Option.some.injEq, beq_iff_eq]
        split_ifs <;> omega

lemma semCount_sum_eq_inRange (ds : List Discipline) :
    semCount 1 ds + semCount 2 ds + semCount 3 ds + semCount 4 ds =
      ((ds.filter semInRange).length) := by
  induction ds with
  | nil => simp [semCount]
  | cons d ds ih =>
      rw [semCount_cons, semCount_cons, semCount_cons, semCount_cons, List.filter_cons]
      rcases hd : d.semester with _ | m
      · have hs : semInRange d = false := by simp [semInRange, hd]
        simp [hs, hd, beq_iff_eq, ih]
      · by_cases hr : 1 ≤ m ∧ m ≤ 4
        · have hs : semInRange d = true := by
            simp [semInRange, hd, decide_eq_true_eq]
            exact hr
          simp [hs, hd, beq_iff_eq]
          split_ifs <;> omega
        · have hs : semInRange d = false := by
            simp [semInRange, hd, decide_eq_false_iff_not]
            omega
          simp [hs, hd, beq_iff_eq]
          split_ifs <;> omega

lemma parseFloatQ_empty : parseFloatQ "" = none := rfl

lemma parseIntZ_empty : parseIntZ "" = none := rfl

lemma pyStrip_empty : pyStrip "" = "" := rfl

lemma matchDigits_ne (s : String) (h : matchDigits s = true) : s ≠ "" := by
  intro he
  rw [he] at h
  exact absurd h (by decide)

lemma extract_bucket_counts (bs : List Block) :
    (extract_summary_info bs).semester_1.disciplines = semCount 1 (allDiscs bs)
  ∧ (extract_summary_info bs).semester_2.disciplines = semCount 2 (allDiscs bs)
  ∧ (extract_summary_info bs).semester_3.disciplines = semCount 3 (allDiscs bs)
  ∧ (extract_summary_info bs).semester_4.disciplines = semCount 4 (allDiscs bs) := by
  have h1 : (extract_summary_info bs).semester_1 =
      ⟨semCredits 1 (allDiscs bs), semHours 1 (allDiscs bs), semCount 1 (allDiscs bs)⟩ :=
    extract_semBucket bs 1 (Or.inl rfl)
  have h2 : (extract_summary_info bs).semester_2 =
      ⟨semCredits 2 (allDiscs bs), semHours 2 (allDiscs bs), semCount 2 (allDiscs bs)⟩ :=
    extract_semBucket bs 2 (Or.inr (Or.inl rfl))
  have h3 : (extract_summary_info bs).semester_3 =
      ⟨semCredits 3 (allDiscs bs), semHours 3 (allDiscs bs), semCount 3 (allDiscs bs)⟩ :=
    extract_semBucket bs 3 (Or.inr (Or.inr (Or.inl rfl)))
  have h4 : (extract_summary_info bs).semester_4 =
      ⟨semCredits 4 (allDiscs bs), semHours 4 (allDiscs bs), semCount 4 (allDiscs bs)⟩ :=
    extract_semBucket bs 4 (Or.inr (Or.inr (Or.inr rfl)))
  rw [h1, h2, h3, h4]
  exact ⟨rfl, rfl, rfl, rfl⟩

/-- C4 (amended): every Module's credits and hours are accumulated into
exactly one of practical_work and theoretical_work — into practical_work
exactly when the lowercased module name contains the substring "практик" —
and the two partitions add back to the totals over all modules.  (The
claim's non-negativity conjunct is refuted by c4_cex: a module row with a
negative credit numeral such as "-5" is accepted whenever its hours are
positive.) -/
theorem c4_amended (rows : List Row) :
    (parse_curriculum_csv rows).summary.practical_work.total_credits =
      (((allModules (parse_curriculum_csv rows).blocks).filter
          (fun m => isPractical m.module_name)).map Module.credits).sum
  ∧ (parse_curriculum_csv rows).summary.practical_work.total_hours =
      (((allModules (parse_curriculum_csv rows).blocks).filter
          (fun m => isPractical m.module_name)).map Module.hours).sum
  ∧ (parse_curriculum_csv rows).summary.theoretical_work.total_credits =
      (((allModules (parse_curriculum_csv rows).blocks).filter
          (fun m => !isPractical m.module_name)).map Module.credits).sum
  ∧ (parse_curriculum_csv rows).summary.theoretical_work.total_hours =
      (((allModules (parse_curriculum_csv rows).blocks).filter
          (fun m => !isPractical m.module_name)).map Module.hours).sum
  ∧ (parse_curriculum_csv rows).summary.practical_work.total_credits +
      (parse_curriculum_csv rows).summary.theoretical_work.total_credits =
      ((allModules (parse_curriculum_csv rows).blocks).map Module.credits).sum
  ∧ (parse_curriculum_csv rows).summary.practical_work.total_hours +
      (parse_curriculum_csv rows).summary.theoretical_work.total_hours =
      ((allModules (parse_curriculum_csv rows).blocks).map Module.hours).sum
  ∧ ∀ name : String, isPractical name = listContains ("практик".data) (lowerList name) := by
  have hs : (parse_curriculum_csv rows).summary =
      extract_summary_info ((parse_curriculum_csv rows).blocks) := rfl
  refine ⟨?_, ?_, ?_, ?_, ?_, ?_, fun name => isPractical_eq name⟩
  · rw [hs, extract_pract]
  · rw [hs, extract_pract]
  · rw [hs, extract_theo]
  · rw [hs, extract_theo]
  · rw [hs, extract_pract, extract_theo]
    exact sum_split _ _ _
  · rw [hs, extract_pract, extract_theo]
    exact sum_split _ _ _

/-- C5 (amended): each semester_distribution bucket k holds exactly the
credits, hours and count of the disciplines whose semester equals k, for k
in 1..4 — so a discipline with a semester value in 1..4 is counted in
exactly its own bucket, while one with a semester value outside 1..4 (see
c5_cex) is counted in none — and the bucket counts sum to at most
total_disciplines. -/
theorem c5_amended (rows : List Row) :
    (parse_curriculum_csv rows).summary.semester_1 =
      ⟨semCredits 1 (allDiscs (parse_curriculum_csv rows).blocks),
       semHours 1 (allDiscs (parse_curriculum_csv rows).blocks),
       semCount 1 (allDiscs (parse_curriculum_csv rows).blocks)⟩
  ∧ (parse_curriculum_csv rows).summary.semester_2 =
      ⟨semCredits 2 (allDiscs (parse_curriculum_csv rows).blocks),
       semHours 2 (allDiscs (parse_curriculum_csv rows).blocks),
       semCount 2 (allDiscs (parse_curriculum_csv rows).blocks)⟩
  ∧ (parse_curriculum_csv rows).summary.semester_3 =
      ⟨semCredits 3 (allDiscs (parse_curriculum_csv rows).blocks),
       semHours 3 (allDiscs (parse_curriculum_csv rows).blocks),
       semCount 3 (allDiscs (parse_curriculum_csv rows).blocks)⟩
  ∧ (parse_curriculum_csv rows).summary.semester_4 =
      ⟨semCredits 4 (allDiscs (parse_curriculum_csv rows).blocks),
       semHours 4 (allDiscs (parse_curriculum_csv rows).blocks),
       semCount 4 (allDiscs (parse_curriculum_csv rows).blocks)⟩
  ∧ (parse_curriculum_csv rows).summary.semester_1.disciplines +
      (parse_curriculum_csv rows).summary.semester_2.disciplines +
      (parse_curriculum_csv rows).summary.semester_3.disciplines +
      (parse_curriculum_csv rows).summary.semester_4.disciplines ≤
      (parse_curriculum_csv rows).summary.total_disciplines := by
  have hs : (parse_curriculum_csv rows).summary =
      extract_summary_info ((parse_curriculum_csv rows).blocks) := rfl
  obtain ⟨e1, e2, e3, e4⟩ := extract_bucket_counts ((parse_curriculum_csv rows).blocks)
  refine ⟨?_, ?_, ?_, ?_, ?_⟩
  · rw [hs]; exact extract_semBucket _ 1 (Or.inl rfl)
  · rw [hs]; exact extract_semBucket _ 2 (Or.inr (Or.inl rfl))
  · rw [hs]; exact extract_semBucket _ 3 (Or.inr (Or.inr (Or.inl rfl)))
  · rw [hs]; exact extract_semBucket _ 4 (Or.inr (Or.inr (Or.inr rfl)))
  · rw [hs, e1, e2, e3, e4, extract_total]
    exact semCount_sum_le _

/-- C10: on a discipline row (digit c1; non-empty c2, c3, c4; parseable
credits and hours) with a Module open, the classifier appends a Discipline
carrying the parsed semester value — also when that value lies outside
1..4 — while the aggregator counts every discipline in total_disciplines
but counts only those with semester in 1..4 in the semester_distribution
buckets, so an out-of-range semester is silently excluded from the
per-semester statistics. -/
theorem c10_out_of_range (st : PState) (b : Block) (r : Row) (cr : ℚ) (hr : ℤ)
    (h1 : matchDigits (pyStrip r.c1) = true)
    (h2 : pyStrip r.c2 ≠ "")
    (h3 : parseFloatQ (pyStrip r.c3) = some cr)
    (h4 : parseIntZ (pyStrip r.c4) = some hr)
    (h5 : st.current = some b)
    (h6 : st.curModOpen = true)
    (h7 : ¬(1 ≤ digitsToNat (pyStrip r.c1).data ∧ digitsToNat (pyStrip r.c1).data ≤ 4)) :
    stepRow st r =
      { st with current := some ({ b with modules := appendToLast b.modules ⟨some (digitsToNat (pyStrip r.c1).data), pyStrip r.c2, cr, hr⟩ }) }
  ∧ ∀ bs : List Block,
      (extract_summary_info bs).total_disciplines = (allDiscs bs).length
      ∧ (extract_summary_info bs).semester_1.disciplines +
          (extract_summary_info bs).semester_2.disciplines +
          (extract_summary_info bs).semester_3.disciplines +
          (extract_summary_info bs).semester_4.disciplines =
          ((allDiscs bs).filter semInRange).length := by
  have hc1 : pyStrip r.c1 ≠ "" := matchDigits_ne _ h1
  have hc3 : pyStrip r.c3 ≠ "" := by
    intro he
    rw [he, parseFloatQ_empty] at h3
    exact Option.noConfusion h3
  have hc4 : pyStrip r.c4 ≠ "" := by
    intro he
    rw [he, parseIntZ_empty] at h4
    exact Option.noConfusion h4
  constructor
  · have hraw : ¬(r.c1 = "" ∧ r.c2 = "" ∧ r.c3 = "" ∧ r.c4 = "") := by
      rintro ⟨e1, -, -, -⟩
      exact hc1 (by rw [e1]; exact pyStrip_empty)
    unfold stepRow
    rw [if_neg hraw]
    unfold stepCols
    rw [if_neg (fun h => hc1 h.1), if_neg (fun h => hc1 h.1),
      if_pos ⟨hc1, h1, h2, hc3, hc4⟩]
    simp [handleDiscSem, h3, h4, h5, h6]
  · intro bs
    obtain ⟨e1, e2, e3, e4⟩ := extract_bucket_counts bs
    exact ⟨extract_total bs, by rw [e1, e2, e3, e4]; exact semCount_sum_eq_inRange _⟩

lemma parse_blocks (rows : List Row) :
    (parse_curriculum_csv rows).blocks = stateBlocks (rows.foldl stepRow initState) := rfl

lemma parse_summary (rows : List Row) :
    (parse_curriculum_csv rows).summary =
      extract_summary_info (stateBlocks (rows.foldl stepRow initState)) := rfl

lemma parse_eq (rows : List Row) :
    parse_curriculum_csv rows =
      ⟨⟨(match rows with | [] => "Учебный план" | r :: _ => r.c1), "ИТМО", "магистратура",
          (rows.foldl stepRow initState).total_credits, (rows.foldl stepRow initState).total_hours⟩,
        stateBlocks (rows.foldl stepRow initState),
        extract_summary_info (stateBlocks (rows.foldl stepRow initState))⟩ := rfl

lemma stepRow_blank (st : PState) : stepRow st ⟨"", "", "", ""⟩ = st := by
  unfold stepRow
  rw [if_pos ⟨rfl, rfl, rfl, rfl⟩]

lemma foldl_insert_blank (pre post : List Row) :
    (pre ++ ⟨"", "", "", ""⟩ :: post).foldl stepRow initState =
      (pre ++ post).foldl stepRow initState := by
  rw [List.foldl_append, List.foldl_append, List.foldl_cons, stepRow_blank]

/-- C7 (amended): inserting an all-empty row at any position leaves the
classifier state — hence the blocks and the summary — unchanged, and leaves
the whole output unchanged whenever the insertion is not at position 0; at
position 0 the title can change (c7_cex), because the title is read from
the first cell of the first row. -/
theorem c7_amended (pre post : List Row) :
    (parse_curriculum_csv (pre ++ ⟨"", "", "", ""⟩ :: post)).blocks =
      (parse_curriculum_csv (pre ++ post)).blocks
  ∧ (parse_curriculum_csv (pre ++ ⟨"", "", "", ""⟩ :: post)).summary =
      (parse_curriculum_csv (pre ++ post)).summary
  ∧ (pre ≠ [] →
      parse_curriculum_csv (pre ++ ⟨"", "", "", ""⟩ :: post) =
        parse_curriculum_csv (pre ++ post)) := by
  have hst := foldl_insert_blank pre post
  refine ⟨?_, ?_, ?_⟩
  · rw [parse_blocks, parse_blocks, hst]
  · rw [parse_summary, parse_summary, hst]
  · intro hpre
    cases pre with
    | nil => exact absurd rfl hpre
    | cons a l =>
        rw [parse_eq, parse_eq, foldl_insert_blank (a :: l) post]
        rfl

/-- The discipline-with-semester branch leaves the state untouched when no
Module is open: the row is classified, parsed, and then dropped. -/
lemma stepRow_orphan (st : PState) (r : Row)
    (h1 : matchDigits (pyStrip r.c1) = true) (h2 : pyStrip r.c2 ≠ "")
    (h3 : pyStrip r.c3 ≠ "") (h4 : pyStrip r.c4 ≠ "")
    (h5 : st.curModOpen = false) : stepRow st r = st := by
  have hc1 : pyStrip r.c1 ≠ "" := matchDigits_ne _ h1
  have hraw : ¬(r.c1 = "" ∧ r.c2 = "" ∧ r.c3 = "" ∧ r.c4 = "") := by
    rintro ⟨e1, -, -, -⟩
    exact hc1 (by rw [e1]; exact pyStrip_empty)
  unfold stepRow
  rw [if_neg hraw]
  unfold stepCols
  rw [if_neg (fun h => hc1 h.1), if_neg (fun h => hc1 h.1),
    if_pos ⟨hc1, h1, h2, h3, h4⟩]
  cases hf : parseFloatQ (pyStrip r.c3) <;> cases hi : parseIntZ (pyStrip r.c4) <;>
    simp [handleDiscSem, hf, hi, h5]

/-- C8 (amended): a discipline row (digit c1, non-empty c2, c3, c4)
arriving while no Module is open is discarded without error: the classifier
state — hence blocks and summary — matches the input without that row, and
the whole output matches whenever the row is not the first row; as the
first row it still supplies the program title (c8_cex). -/
theorem c8_amended (pre post : List Row) (r : Row)
    (h1 : matchDigits (pyStrip r.c1) = true) (h2 : pyStrip r.c2 ≠ "")
    (h3 : pyStrip r.c3 ≠ "") (h4 : pyStrip r.c4 ≠ "")
    (h5 : (pre.foldl stepRow initState).curModOpen = false) :
    (parse_curriculum_csv (pre ++ r :: post)).blocks =
      (parse_curriculum_csv (pre ++ post)).blocks
  ∧ (parse_curriculum_csv (pre ++ r :: post)).summary =
      (parse_curriculum_csv (pre ++ post)).summary
  ∧ (pre ≠ [] →
      parse_curriculum_csv (pre ++ r :: post) = parse_curriculum_csv (pre ++ post)) := by
  have hst : (pre ++ r :: post).foldl stepRow initState =
      (pre ++ post).foldl stepRow initState := by
    rw [List.foldl_append, List.foldl_append, List.foldl_cons,
      stepRow_orphan _ _ h1 h2 h3 h4 h5]
  refine ⟨?_, ?_, ?_⟩
  · rw [parse_blocks, parse_blocks, hst]
  · rw [parse_summary, parse_summary, hst]
  · intro hpre
    cases pre with
    | nil => exact absurd rfl hpre
    | cons a l =>
        rw [parse_eq, parse_eq]
        rw [show ((a :: l) ++ r :: post).foldl stepRow initState =
            ((a :: l) ++ post).foldl stepRow initState from hst]
        rfl

lemma blockFullParse_empty : blockFullParse "" = none := rfl

lemma blockHeadOk_of_full (c2 : String) (n : Nat) (nm : String)
    (h : blockFullParse c2 = some (n, nm)) : blockHeadOk c2 = true := by
  unfold blockFullParse at h
  unfold blockHeadOk
  cases hh : blockHeadParse c2.data <;> rw [hh] at h
  · exact Option.noConfusion h
  · rfl

/-- C2 (amended): blank numeric cells default to 0, but the recovery is not
per-cell.  In a block-header row a parse failure in c4 resets the
parseable c3 to 0 as well (both fields become 0 while the row is still
processed); in a discipline row a parse failure in c3 discards the whole
row. -/
theorem c2_amended (st : PState) (r : Row) (n : Nat) (nm : String) (cr : ℚ) :
    ((pyStrip r.c1 = "" ∧ blockFullParse (pyStrip r.c2) = some (n, nm) ∧
        parseFloatQ (pyStrip r.c3) = some cr ∧ pyStrip r.c4 ≠ "" ∧
        parseIntZ (pyStrip r.c4) = none) →
      (stepRow st r).current = some ⟨n, nm, 0, 0, []⟩)
  ∧ ((matchDigits (pyStrip r.c1) = true ∧ pyStrip r.c2 ≠ "" ∧ pyStrip r.c3 ≠ "" ∧
        pyStrip r.c4 ≠ "" ∧ parseFloatQ (pyStrip r.c3) = none) →
      stepRow st r = st) := by
  constructor
  · rintro ⟨e1, e2, e3, e4, e5⟩
    have hc2 : pyStrip r.c2 ≠ "" := by
      intro he
      rw [he, blockFullParse_empty] at e2
      exact Option.noConfusion e2
    have hc3 : pyStrip r.c3 ≠ "" := by
      intro he
      rw [he, parseFloatQ_empty] at e3
      exact Option.noConfusion e3
    have hraw : ¬(r.c1 = "" ∧ r.c2 = "" ∧ r.c3 = "" ∧ r.c4 = "") := by
      rintro ⟨-, eb, -, -⟩
      exact hc2 (by rw [eb]; exact pyStrip_empty)
    unfold stepRow
    rw [if_neg hraw]
    unfold stepCols
    rw [if_pos ⟨e1, blockHeadOk_of_full _ _ _ e2⟩]
    simp [handleBlock, e2, parseCH, hc3, e4, e3, e5]
  · rintro ⟨m1, m2, m3, m4, mf⟩
    have hc1 : pyStrip r.c1 ≠ "" := matchDigits_ne _ m1
    have hraw : ¬(r.c1 = "" ∧ r.c2 = "" ∧ r.c3 = "" ∧ r.c4 = "") := by
      rintro ⟨e1, -, -, -⟩
      exact hc1 (by rw [e1]; exact pyStrip_empty)
    unfold stepRow
    rw [if_neg hraw]
    unfold stepCols
    rw [if_neg (fun h => hc1 h.1), if_neg (fun h => hc1 h.1),
      if_pos ⟨hc1, m1, m2, m3, m4⟩]
    simp [handleDiscSem, mf]

lemma appendToLast_mem (d : Discipline) : ∀ (ms : List Module) (m : Module),
    m ∈ appendToLast ms d →
      m ∈ ms ∨ ∃ m0 ∈ ms, m = { m0 with disciplines := m0.disciplines ++ [d] } := by
  intro ms
  induction ms with
  | nil => intro m hm; simp [appendToLast] at hm
  | cons m1 ms ih =>
      cases ms with
      | nil =>
          intro m hm
          simp [appendToLast] at hm
          right
          exact ⟨m1, by simp, hm⟩
      | cons m2 ms2 =>
          intro m hm
          rw [show appendToLast (m1 :: m2 :: ms2) d =
              m1 :: appendToLast (m2 :: ms2) d from rfl] at hm
          rcases List.mem_cons.mp hm with hm | hm
          · left; simp [hm]
          · rcases ih m hm with h | ⟨m0, hm0, he⟩
            · left; exact List.mem_cons_of_mem _ h
            · right; exact ⟨m0, List.mem_cons_of_mem _ hm0, he⟩

lemma discsOk_handleBlock (st : PState) (c2 c3 c4 : String) (h : discsOkS st) :
    discsOkS (handleBlock st c2 c3 c4) := by
  obtain ⟨hd, hc⟩ := h
  unfold handleBlock
  cases hf : blockFullParse c2 with
  | none =>
      cases hcur : st.current with
      | none => exact ⟨hd, hc⟩
      | some bc =>
          refine ⟨fun b hb => hd b hb, fun b hb => ?_⟩
          simp only at hb
          exact hc b (hcur ▸ hb)
  | some nn =>
      cases hcur : st.current with
      | none =>
          refine ⟨fun b hb => ?_, fun b hb => ?_⟩
          · simp only [hcur, List.append_nil] at hb
            exact hd b hb
          · simp only at hb
            obtain he := Option.some.inj hb
            intro m hm
            rw [← he] at hm
            simp at hm
      | some bc =>
          refine ⟨fun b hb => ?_, fun b hb => ?_⟩
          · simp only [hcur] at hb
            rcases List.mem_append.mp hb with h1 | h1
            · exact hd b h1
            · rw [List.eq_of_mem_replicate h1]
              exact hc bc hcur
          · simp only at hb
            obtain he := Option.some.inj hb
            intro m hm
            rw [← he] at hm
            simp at hm

lemma discsOk_handleModule (st : PState) (c2 c3 c4 : String) (h : discsOkS st) :
    discsOkS (handleModule st c2 c3 c4) := by
  obtain ⟨hd, hc⟩ := h
  unfold handleModule
  cases hcur : st.current with
  | none => exact ⟨hd, hc⟩
  | some bc =>
      dsimp only
      split_ifs with hp
      · refine ⟨fun b hb => hd b hb, fun b hb => ?_⟩
        simp only at hb
        obtain he := Option.some.inj hb
        intro m hm d hdm
        rw [← he] at hm
        simp only at hm
        rcases List.mem_append.mp hm with h1 | h1
        · exact hc bc hcur m h1 d hdm
        · rw [List.mem_singleton.mp h1] at hdm
          simp at hdm
      · exact ⟨hd, hc⟩

lemma discsOk_handleDiscSem (st : PState) (c1 c2 c3 c4 : String) (h : discsOkS st) :
    discsOkS (handleDiscSem st c1 c2 c3 c4) := by
  obtain ⟨hd, hc⟩ := h
  unfold handleDiscSem
  cases hf : parseFloatQ c3 with
  | none => exact ⟨hd, hc⟩
  | some cr =>
      cases hi : parseIntZ c4 with
      | none => exact ⟨hd, hc⟩
      | some hrs =>
          dsimp only
          split_ifs with hm
          · cases hcur : st.current with
            | none => exact ⟨hd, hc⟩
            | some bc =>
                refine ⟨fun b hb => hd b hb, fun b hb => ?_⟩
                simp only at hb
                obtain he := Option.some.inj hb
                intro m hmm d hdm
                rw [← he] at hmm
                simp only at hmm
                rcases appendToLast_mem _ _ _ hmm with h1 | ⟨m0, hm0, hme⟩
                · exact hc bc hcur m h1 d hdm
                · rw [hme] at hdm
                  simp only at hdm
                  rcases List.mem_append.mp hdm with h2 | h2
                  · exact hc bc hcur m0 hm0 d h2
                  · rw [List.mem_singleton.mp h2]
                    rfl
          · exact ⟨hd, hc⟩

lemma discsOk_step (st : PState) (r : Row) (h : discsOkS st) : discsOkS (stepRow st r) := by
  unfold stepRow
  split_ifs with hb
  · exact h
  · unfold stepCols
    split_ifs with g1 g2 g3
    · exact discsOk_handleBlock _ _ _ _ h
    · exact discsOk_handleModule _ _ _ _ h
    · exact discsOk_handleDiscSem _ _ _ _ _ h
    · exact h

lemma discsOk_foldl (rows : List Row) : ∀ st : PState,
    discsOkS st → discsOkS (rows.foldl stepRow st) := by
  induction rows with
  | nil => intro st h; exact h
  | cons r rows ih =>
      intro st h
      rw [List.foldl_cons]
      exact ih _ (discsOk_step st r h)

/-- C3 (amended): rows matching the discipline-without-semester guard are
always consumed first by the module-header branch, whose guard is
character-for-character identical; the discipline-without-semester branch
is unreachable, so every Discipline in the output of the parser carries a
semester value (none is ever appended without one). -/
theorem c3_amended (rows : List Row) (b : Block) (m : Module) (d : Discipline)
    (hb : b ∈ (parse_curriculum_csv rows).blocks) (hm : m ∈ b.modules)
    (hd : d ∈ m.disciplines) : d.semester.isSome = true := by
  have h0 : discsOkS initState := by
    constructor
    · intro b hb
      simp [initState] at hb
    · intro b hb
      simp [initState] at hb
  have hf := discsOk_foldl rows initState h0
  rw [parse_blocks] at hb
  unfold stateBlocks at hb
  rcases List.mem_append.mp hb with h | h
  · exact hf.1 b h m hm d hd
  · cases hc : (rows.foldl stepRow initState).current with
    | none => rw [hc] at h; simp at h
    | some bc =>
        rw [hc] at h
        rw [List.eq_of_mem_replicate h] at hm
        exact hf.2 bc hc m hm d hd

lemma sumsOk_handleModule (st : PState) (c2 c3 c4 : String) (h : sumsOk st) :
    sumsOk (handleModule st c2 c3 c4) := by
  obtain ⟨ha, hcr, hhr⟩ := h
  unfold handleModule
  cases hcur : st.current with
  | none => exact ⟨ha, hcr, hhr⟩
  | some bc =>
      rw [hcur] at hcr hhr
      dsimp only
      split_ifs with hp
      · exact ⟨ha, by simpa using hcr, by simpa using hhr⟩
      · rw [← hcur] at hcr hhr
        exact ⟨ha, hcr, hhr⟩

lemma sumsOk_handleDiscSem (st : PState) (c1 c2 c3 c4 : String) (h : sumsOk st) :
    sumsOk (handleDiscSem st c1 c2 c3 c4) := by
  obtain ⟨ha, hcr, hhr⟩ := h
  unfold handleDiscSem
  cases hf : parseFloatQ c3 with
  | none => exact ⟨ha, hcr, hhr⟩
  | some cr =>
      cases hi : parseIntZ c4 with
      | none => exact ⟨ha, hcr, hhr⟩
      | some hrs =>
          dsimp only
          split_ifs with hm
          · cases hcur : st.current with
            | none => exact ⟨ha, hcr, hhr⟩
            | some bc =>
                rw [hcur] at hcr hhr
                dsimp only
                exact ⟨ha, by simpa using hcr, by simpa using hhr⟩
          · exact ⟨ha, hcr, hhr⟩

lemma sumsOk_handleBlock (st : PState) (c2 c3 c4 : String)
    (hfull : (blockFullParse c2).isSome = true) (h : sumsOk st) :
    sumsOk (handleBlock st c2 c3 c4) := by
  obtain ⟨ha, hcr, hhr⟩ := h
  unfold handleBlock
  cases hf : blockFullParse c2 with
  | none =>
      rw [hf] at hfull
      simp at hfull
  | some nn =>
      cases hcur : st.current with
      | none =>
          rw [hcur] at hcr hhr
          simp only [Option.elim_none, add_zero] at hcr hhr
          dsimp only
          refine ⟨rfl, ?_, ?_⟩
          · simp [hcur, hcr]
          · simp [hcur, hhr]
      | some bc =>
          rw [hcur] at hcr hhr
          simp only [Option.elim_some] at hcr hhr
          dsimp only
          refine ⟨rfl, ?_, ?_⟩
          · simp only [ha, List.replicate_succ, List.replicate_zero, List.map_append,
              List.sum_append, List.map_cons, List.map_nil, List.sum_cons, List.sum_nil,
              Option.elim_some]
            rw [← hcr]
            ring
          · simp only [ha, List.replicate_succ, List.replicate_zero, List.map_append,
              List.sum_append, List.map_cons, List.map_nil, List.sum_cons, List.sum_nil,
              Option.elim_some]
            rw [← hhr]
            ring

lemma sumsOk_step (st : PState) (r : Row) (hg : goodRow r) (h : sumsOk st) :
    sumsOk (stepRow st r) := by
  unfold stepRow
  split_ifs with hb
  · exact h
  · unfold stepCols
    split_ifs with g1 g2 g3
    · exact sumsOk_handleBlock _ _ _ _ (hg g1.1 g1.2) h
    · exact sumsOk_handleModule _ _ _ _ h
    · exact sumsOk_handleDiscSem _ _ _ _ _ h
    · exact h

lemma sumsOk_foldl (rows : List Row) : ∀ st : PState,
    (∀ r ∈ rows, goodRow r) → sumsOk st → sumsOk (rows.foldl stepRow st) := by
  induction rows with
  | nil => intro st _ h; exact h
  | cons r rows ih =>
      intro st hg h
      rw [List.foldl_cons]
      exact ih _ (fun x hx => hg x (List.mem_cons_of_mem _ hx))
        (sumsOk_step st r (hg r (List.mem_cons_self _ _)) h)

/-- C1 (amended): whenever every row whose second cell matches the
block-header prefix pattern "Блок <int>." also matches the full pattern
"Блок <int>. <name>", the sum of total_credits over the output blocks
equals program_info.total_credits, and likewise for hours.  (Without that
proviso a half-matching header row duplicates the open block in the output
list while its totals are counted once — c1_cex.) -/
theorem c1_amended (rows : List Row) (h : ∀ r ∈ rows, goodRow r) :
    ((parse_curriculum_csv rows).blocks.map Block.total_credits).sum =
      (parse_curriculum_csv rows).program_info.total_credits
  ∧ ((parse_curriculum_csv rows).blocks.map Block.total_hours).sum =
      (parse_curriculum_csv rows).program_info.total_hours := by
  have h0 : sumsOk initState := ⟨rfl, by simp [initState], by simp [initState]⟩
  obtain ⟨ha, hcr, hhr⟩ := sumsOk_foldl rows initState h h0
  have hpc : (parse_curriculum_csv rows).program_info.total_credits =
      (rows.foldl stepRow initState).total_credits := rfl
  have hph : (parse_curriculum_csv rows).program_info.total_hours =
      (rows.foldl stepRow initState).total_hours := rfl
  constructor
  · rw [parse_blocks, hpc]
    unfold stateBlocks
    cases hc : (rows.foldl stepRow initState).current with
    | none =>
        rw [hc] at hcr
        simp only [Option.elim_none, add_zero] at hcr
        simpa using hcr
    | some bc =>
        rw [hc] at hcr
        simp only [Option.elim_some] at hcr
        simp [ha, List.replicate_succ, ← hcr]
  · rw [parse_blocks, hph]
    unfold stateBlocks
    cases hc : (rows.foldl stepRow initState).current with
    | none =>
        rw [hc] at hhr
        simp only [Option.elim_none, add_zero] at hhr
        simpa using hhr
    | some bc =>
        rw [hc] at hhr
        simp only [Option.elim_some] at hhr
        simp [ha, List.replicate_succ, ← hhr]

/-- C6: parsing the single row ("", "Блок 1. Дисциплины", "10", "360") yields
exactly one Block numbered 1 named "Дисциплины" with 10 credits, 360 hours
and no modules, and program totals of 10 credits and 360 hours. -/
theorem c6_scenarioA :
    (parse_curriculum_csv [⟨"", "Блок 1. Дисциплины", "10", "360"⟩]).blocks =
        [⟨1, "Дисциплины", 10, 360, []⟩]
  ∧ (parse_curriculum_csv [⟨"", "Блок 1. Дисциплины", "10", "360"⟩]).program_info.total_credits = 10
  ∧ (parse_curriculum_csv [⟨"", "Блок 1. Дисциплины", "10", "360"⟩]).program_info.total_hours = 360 := by
  set_option maxRecDepth 8000 in with_unfolding_all decide

/-- C1 counterexample: a row whose second cell matches the block-header
prefix "Блок 2." but not the full pattern (no space-and-name after the
period) seals the open block without replacing it, so the final blocks list
holds that block twice while the program totals count it once: the sums of
block credits and hours (20 and 200) differ from the program totals (10 and
100). -/
theorem c1_cex :
    (((parse_curriculum_csv [⟨"", "Блок 1. A", "10", "100"⟩, ⟨"", "Блок 2.", "", ""⟩]).blocks.map
        Block.total_credits).sum = 20)
  ∧ ((parse_curriculum_csv [⟨"", "Блок 1. A", "10", "100"⟩, ⟨"", "Блок 2.", "", ""⟩]).program_info.total_credits = 10)
  ∧ (((parse_curriculum_csv [⟨"", "Блок 1. A", "10", "100"⟩, ⟨"", "Блок 2.", "", ""⟩]).blocks.map
        Block.total_hours).sum = 200)
  ∧ ((parse_curriculum_csv [⟨"", "Блок 1. A", "10", "100"⟩, ⟨"", "Блок 2.", "", ""⟩]).program_info.total_hours = 100)
  ∧ ((20 : ℚ) ≠ 10) ∧ ((200 : ℤ) ≠ 100) := by
  set_option maxRecDepth 8000 in with_unfolding_all decide

/-- C2 counterexample: in the block-header row ("", "Блок 1. A", "10", "x")
the credit cell "10" is parseable, yet because the hour cell "x" fails to
parse the shared except clause resets BOTH fields to 0 — so the parse
failure in one numeric cell does change the value taken from the other,
parseable cell. -/
theorem c2_cex :
    ((parse_curriculum_csv [⟨"", "Блок 1. A", "10", "x"⟩]).blocks = [⟨1, "A", 0, 0, []⟩])
  ∧ parseFloatQ "10" = some 10
  ∧ parseIntZ "x" = none
  ∧ ((0 : ℚ) ≠ 10) := by
  set_option maxRecDepth 8000 in with_unfolding_all decide

/-- C3 counterexample: with Module "M" open, the row ("", "X", "5", "100.5")
satisfies the discipline-without-semester guard and its credit cell parses
to 5 > 0, yet no Discipline is appended: the row is consumed by the
module-header branch (whose guard is identical and is tried first), which
does nothing because int("100.5") fails, so "M" keeps zero disciplines. -/
theorem c3_cex :
    ((parse_curriculum_csv [⟨"", "Блок 1. A", "10", "100"⟩, ⟨"", "M", "3", "108"⟩,
        ⟨"", "X", "5", "100.5"⟩]).blocks = [⟨1, "A", 10, 100, [⟨"M", 3, 108, []⟩]⟩])
  ∧ parseFloatQ "5" = some 5
  ∧ ((0 : ℚ) < 5)
  ∧ parseIntZ "100.5" = none := by
  set_option maxRecDepth 8000 in with_unfolding_all decide

/-- C4 counterexample: the module row ("", "M", "-5", "108") is accepted
(hours 108 > 0) and produces a Module whose credits are the negative number
-5, refuting the claim that module credits are never negative. -/
theorem c4_cex :
    ((parse_curriculum_csv [⟨"", "Блок 1. A", "10", "100"⟩, ⟨"", "M", "-5", "108"⟩]).blocks =
        [⟨1, "A", 10, 100, [⟨"M", -5, 108, []⟩]⟩])
  ∧ ¬((0 : ℚ) ≤ -5) := by
  set_option maxRecDepth 8000 in with_unfolding_all decide

/-- C5 counterexample: the discipline row ("5", "DD", "5", "180") appends a
Discipline carrying semester 5; it counts in total_disciplines (= 1) but is
added to none of the four semester_distribution buckets, so a discipline
carrying a semester value is not always counted in exactly one bucket. -/
theorem c5_cex :
    ((parse_curriculum_csv [⟨"", "Блок 2. B", "12", "400"⟩, ⟨"", "MM", "3", "108"⟩,
        ⟨"5", "DD", "5", "180"⟩]).summary.total_disciplines = 1)
  ∧ ((parse_curriculum_csv [⟨"", "Блок 2. B", "12", "400"⟩, ⟨"", "MM", "3", "108"⟩,
        ⟨"5", "DD", "5", "180"⟩]).summary.semester_1.disciplines = 0)
  ∧ ((parse_curriculum_csv [⟨"", "Блок 2. B", "12", "400"⟩, ⟨"", "MM", "3", "108"⟩,
        ⟨"5", "DD", "5", "180"⟩]).summary.semester_2.disciplines = 0)
  ∧ ((parse_curriculum_csv [⟨"", "Блок 2. B", "12", "400"⟩, ⟨"", "MM", "3", "108"⟩,
        ⟨"5", "DD", "5", "180"⟩]).summary.semester_3.disciplines = 0)
  ∧ ((parse_curriculum_csv [⟨"", "Блок 2. B", "12", "400"⟩, ⟨"", "MM", "3", "108"⟩,
        ⟨"5", "DD", "5", "180"⟩]).summary.semester_4.disciplines = 0)
  ∧ ((allDiscs (parse_curriculum_csv [⟨"", "Блок 2. B", "12", "400"⟩, ⟨"", "MM", "3", "108"⟩,
        ⟨"5", "DD", "5", "180"⟩]).blocks).map Discipline.semester = [some 5]) := by
  set_option maxRecDepth 8000 in with_unfolding_all decide

/-- C7 counterexample: inserting a blank row at position 0 changes the
output, because the program title is read from the first cell of the first
row: with the blank row first the title is "", without it the title is
"t". -/
theorem c7_cex :
    ((parse_curriculum_csv [⟨"", "", "", ""⟩, ⟨"t", "", "", ""⟩]).program_info.title = "")
  ∧ ((parse_curriculum_csv [⟨"t", "", "", ""⟩]).program_info.title = "t")
  ∧ parse_curriculum_csv [⟨"", "", "", ""⟩, ⟨"t", "", "", ""⟩] ≠
      parse_curriculum_csv [⟨"t", "", "", ""⟩] := by
  set_option maxRecDepth 8000 in with_unfolding_all decide

/-- C8 counterexample: the orphan discipline row ("1", "D", "5", "180")
(no Module open) is indeed discarded by the classifier, but when it is the
first row the output still differs from the output on the empty input,
because the program title is read from that row ("1" versus the default
"Учебный план"). -/
theorem c8_cex :
    ((parse_curriculum_csv [⟨"1", "D", "5", "180"⟩]).blocks = [])
  ∧ ((parse_curriculum_csv [⟨"1", "D", "5", "180"⟩]).program_info.title = "1")
  ∧ ((parse_curriculum_csv []).program_info.title = "Учебный план")
  ∧ parse_curriculum_csv [⟨"1", "D", "5", "180"⟩] ≠ parse_curriculum_csv [] := by
  set_option maxRecDepth 8000 in with_unfolding_all decide

/-- C9: the program title is taken verbatim from the raw first cell of the
first row (defaulting to "Учебный план" on empty input), while the blocks
are built by folding the classifier over the whole row sequence, the first
row included — concretely, a first row that is a block header also yields a
Block. -/
theorem c9_title_first_row : ∀ (rows : List Row),
    (parse_curriculum_csv rows).program_info.title =
        (match rows with | [] => "Учебный план" | r :: _ => r.c1)
  ∧ (parse_curriculum_csv rows).blocks = stateBlocks (rows.foldl stepRow initState)
  ∧ (parse_curriculum_csv [⟨"", "Блок 1. Q", "2", "72"⟩]).blocks.length = 1 := by
  intro rows
  refine ⟨?_, rfl, ?_⟩
  · cases rows <;> rfl
  · set_option maxRecDepth 8000 in with_unfolding_all decide

theorem c1_amended_witness :
    ((parse_curriculum_csv [⟨"", "Блок 1. Q", "6", "216"⟩]).blocks.map Block.total_credits).sum =
      (parse_curriculum_csv [⟨"", "Блок 1. Q", "6", "216"⟩]).program_info.total_credits
  ∧ ((parse_curriculum_csv [⟨"", "Блок 1. Q", "6", "216"⟩]).blocks.map Block.total_hours).sum =
      (parse_curriculum_csv [⟨"", "Блок 1. Q", "6", "216"⟩]).program_info.total_hours :=
  c1_amended [⟨"", "Блок 1. Q", "6", "216"⟩]
    (by set_option maxRecDepth 8000 in with_unfolding_all decide)

theorem c2_amended_witness :
    (stepRow initState ⟨"", "Блок 3. C", "7", "y"⟩).current = some ⟨3, "C", 0, 0, []⟩
  ∧ stepRow initState ⟨"2", "DD", "zz", "144"⟩ = initState :=
  ⟨(c2_amended initState ⟨"", "Блок 3. C", "7", "y"⟩ 3 "C" 7).1
      ⟨by with_unfolding_all decide, by with_unfolding_all decide,
        by with_unfolding_all decide, by with_unfolding_all decide,
        by with_unfolding_all decide⟩,
    (c2_amended initState ⟨"2", "DD", "zz", "144"⟩ 0 "" 0).2
      ⟨by with_unfolding_all decide, by with_unfolding_all decide,
        by with_unfolding_all decide, by with_unfolding_all decide,
        by with_unfolding_all decide⟩⟩

theorem c3_amended_witness :
    (⟨some 1, "DW", 3, 108⟩ : Discipline).semester.isSome = true :=
  c3_amended [⟨"", "Блок 4. D", "9", "300"⟩, ⟨"", "MW", "2", "72"⟩, ⟨"1", "DW", "3", "108"⟩]
    ⟨4, "D", 9, 300, [⟨"MW", 2, 72, [⟨some 1, "DW", 3, 108⟩]⟩]⟩
    ⟨"MW", 2, 72, [⟨some 1, "DW", 3, 108⟩]⟩ ⟨some 1, "DW", 3, 108⟩
    (by set_option maxRecDepth 8000 in with_unfolding_all decide)
    (by with_unfolding_all decide) (by with_unfolding_all decide)

theorem c7_amended_witness :
    parse_curriculum_csv ([⟨"r", "", "", ""⟩] ++ ⟨"", "", "", ""⟩ :: []) =
      parse_curriculum_csv ([⟨"r", "", "", ""⟩] ++ []) :=
  (c7_amended [⟨"r", "", "", ""⟩] []).2.2 (by decide)

theorem c8_amended_witness :
    parse_curriculum_csv ([⟨"", "Блок 1. W", "7", "200"⟩] ++ ⟨"2", "DD", "4", "144"⟩ :: []) =
      parse_curriculum_csv ([⟨"", "Блок 1. W", "7", "200"⟩] ++ []) :=
  (c8_amended [⟨"", "Блок 1. W", "7", "200"⟩] [] ⟨"2", "DD", "4", "144"⟩
      (by with_unfolding_all decide) (by with_unfolding_all decide)
      (by with_unfolding_all decide) (by with_unfolding_all decide)
      (by set_option maxRecDepth 8000 in with_unfolding_all decide)).2.2
    (by decide)

theorem c10_out_of_range_witness :
    stepRow ⟨[], some ⟨1, "AW", 10, 100, [⟨"W", 3, 108, []⟩]⟩, 0, true, 10, 100⟩ ⟨"7", "DX", "2", "72"⟩ =
      ⟨[], some ⟨1, "AW", 10, 100, [⟨"W", 3, 108, [⟨some 7, "DX", 2, 72⟩]⟩]⟩, 0, true, 10, 100⟩ :=
  (c10_out_of_range ⟨[], some ⟨1, "AW", 10, 100, [⟨"W", 3, 108, []⟩]⟩, 0, true, 10, 100⟩
      ⟨1, "AW", 10, 100, [⟨"W", 3, 108, []⟩]⟩ ⟨"7", "DX", "2", "72"⟩ 2 72
      (by with_unfolding_all decide) (by with_unfolding_all decide)
      (by with_unfolding_all decide) (by with_unfolding_all decide)
      rfl rfl (by with_unfolding_all decide)).1

end Curr
